import Mathlib

/-
Verification of the ESP32 CAN bus framing library
(`esp32_can_library.h`): identifier codec, CRC-8 checksum,
fragmentation / reassembly state machine, acknowledgment wait and
retry loop, and the type-id dispatch registry.

The C++ class `CANBus` is shallowly embedded: machine bytes and the
11-bit identifier become `Nat` with explicit masking, the
`unordered_map` members become association lists, `steady_clock`
time points become `Nat` milliseconds, and side effects (invoking a
registered handler, transmitting an ACK frame, firing the error
callback) are recorded in output lists carried by the state.
-/

namespace CANBus

/-- `enum Sequence : uint8_t { START=0, ... }`. -/
def START : Nat := 0

/-- `MIDDLE=1` in the `Sequence` enum. -/
def MIDDLE : Nat := 1

/-- `END=2` in the `Sequence` enum. -/
def END : Nat := 2

/-- `SINGLE=3` in the `Sequence` enum. -/
def SINGLE : Nat := 3

/-- `static constexpr uint8_t ACK_TYPE_ID = 0x7`. -/
def ACK_TYPE_ID : Nat := 7

/-- `static constexpr uint32_t REASSEMBLY_TIMEOUT = 500`. -/
def REASSEMBLY_TIMEOUT : Nat := 500

/-- One bus frame: `twai_message_t` restricted to the fields the
library uses, an 11-bit identifier and up to 8 data bytes
(`data_length_code` is the list length). -/
structure Frame where
  identifier : Nat
  data : List Nat
deriving DecidableEq, Repr

/-- `CANBus::buildId`: pack `(prio & 3) << 9 | (addr & 0xF) << 5 |
(seq & 3) << 3 | (type & 7)`. -/
def buildId (prio addr seq type : Nat) : Nat :=
  ((prio &&& 3) <<< 9) ||| ((addr &&& 15) <<< 5) ||| ((seq &&& 3) <<< 3) ||| (type &&& 7)

/-- `uint8_t seq = (id >> 3) & 0x03` from `handleReceive`. -/
def decodeSeq (id : Nat) : Nat := (id >>> 3) &&& 3

/-- `uint8_t type = id & 0x07` from `handleReceive`. -/
def decodeType (id : Nat) : Nat := id &&& 7

/-- `uint8_t from = (id >> 5) & 0x0F` from `handleReceive`. -/
def decodeFrom (id : Nat) : Nat := (id >>> 5) &&& 15

/-- Modelled from the spec: the `decode` priority field of §4.1.  The
source never extracts priority out of a received identifier; per the
documented identifier schema (bits 10..9) the inverse shift/mask is
`(id >> 9) & 0x03`. -/
def decodePrio (id : Nat) : Nat := (id >>> 9) &&& 3

/-- `uint32_t baseId = id & ~uint32_t(0x18)` from `handleReceive`:
the routing key, the identifier with the sequence bits cleared. -/
def baseKey (id : Nat) : Nat := id &&& 0xFFFFFFE7

/-- `crc8`'s inner loop body: `crc = (crc & 0x80) ? (crc << 1) ^ 0x31
: (crc << 1)` with the implicit `uint8_t` truncation on assignment. -/
def bitStep (c : Nat) : Nat :=
  if c &&& 0x80 ≠ 0 then ((c <<< 1) ^^^ 0x31) % 256 else (c <<< 1) % 256

/-- `crc8`'s outer loop body: `crc ^= data[i]` followed by eight
iterations of `bitStep`. -/
def crc8Byte (crc b : Nat) : Nat := bitStep^[8] (crc ^^^ b)

/-- `CANBus::crc8`: CRC-8 with polynomial 0x31, initial value 0,
processing the bytes in order. -/
def crc8 (data : List Nat) : Nat := data.foldl crc8Byte 0

/-! ### Fragmentation (the transmit loop of `CANBus::send`) -/

/-- The walk `offset += chunk` with `chunk = min(8, size - offset)`
in `send`, as the list of consecutive ≤8-byte chunks of the buffer. -/
def chunks (bs : List Nat) : List (List Nat) :=
  if h : bs = [] then [] else bs.take 8 :: chunks (bs.drop 8)
termination_by bs.length
decreasing_by
  simp only [List.length_drop]
  have : 0 < bs.length := List.length_pos.mpr h
  omega

/-- The sequence tag chosen per chunk in `send`:
`!fragmented ? SINGLE : (offset == 0 ? START : (offset + chunk >=
buf.size() ? END : MIDDLE))`; `first` tracks `offset == 0` and the
rest of the chunk list being empty is `offset + chunk >= buf.size()`. -/
def tagChunks (fragmented first : Bool) : List (List Nat) → List (Nat × List Nat)
  | [] => []
  | c :: rest =>
    (if fragmented then (if first then START else if rest.isEmpty then END else MIDDLE)
     else SINGLE, c) :: tagChunks fragmented false rest

/-- Build the `twai_message_t` for one tagged chunk:
`m.identifier = buildId(prio, addr, seq, type)`, payload the chunk. -/
def mkFrame (prio addr type : Nat) (tc : Nat × List Nat) : Frame :=
  ⟨buildId prio addr tc.1 type, tc.2⟩

/-- The frame sequence transmitted by one attempt of
`CANBus::send(prio, addr, msg)` for a message of raw bytes `msg`:
`fragmented = (len > 8)`; if fragmented, `crc8` of the bytes is
appended before splitting. -/
def sendFrames (prio addr type : Nat) (msg : List Nat) : List Frame :=
  let fragmented : Bool := decide (8 < msg.length)
  let buf := if fragmented then msg ++ [crc8 msg] else msg
  (tagChunks fragmented true (chunks buf)).map (mkFrame prio addr type)

/-! ### Receive-side state -/

/-- `struct FragEntry { std::vector<uint8_t> data; time_point
timestamp; }`.  A default-constructed entry (what
`fragMap_[baseId]` inserts for an absent key) has empty data and the
clock epoch, timestamp `0`. -/
structure FragEntry where
  data : List Nat
  timestamp : Nat
deriving DecidableEq, Repr

/-- The receive-relevant state of a `CANBus` object, plus output
logs: `invoked` records each handler invocation `(type, payload)`
performed by `dispatch`, and `acksSent` each ACK frame transmitted
by `sendAck`. -/
structure BusState where
  pendingAck : Nat
  fragMap : List (Nat × FragEntry)
  handlers : List (Nat × Nat)
  invoked : List (Nat × List Nat)
  acksSent : List Frame
deriving DecidableEq, Repr

/-- A `CANBus` right after construction and handler registration:
`pendingAck_ = 0`, empty reassembly table, no output yet.  Each
registered handler is `(type-id, sizeof(T))`. -/
def initState (handlers : List (Nat × Nat)) : BusState :=
  ⟨0, [], handlers, [], []⟩

/-- Association-list lookup for `fragMap_` / `handlers_`
(`unordered_map::find`). -/
def assocLookup {α : Type} : List (Nat × α) → Nat → Option α
  | [], _ => none
  | (k', v) :: rest, k => if k' = k then some v else assocLookup rest k

/-- Insert-or-replace for `fragMap_[baseId] = entry`. -/
def fragInsert : List (Nat × FragEntry) → Nat → FragEntry → List (Nat × FragEntry)
  | [], k, e => [(k, e)]
  | (k', e') :: rest, k, e =>
    if k' = k then (k, e) :: rest else (k', e') :: fragInsert rest k e

/-- `fragMap_.erase(baseId)`. -/
def fragErase : List (Nat × FragEntry) → Nat → List (Nat × FragEntry)
  | [], _ => []
  | (k', e) :: rest, k => if k' = k then fragErase rest k else (k', e) :: fragErase rest k

/-- `m.data_length_code > 0 ? m.data[0] : 0` (the ACK branch of
`handleReceive`). -/
def headOr0 : List Nat → Nat
  | [] => 0
  | b :: _ => b

/-- `CANBus::expired`: strictly more than `REASSEMBLY_TIMEOUT`
time units have elapsed since the entry's timestamp. -/
def expired (t0 now : Nat) : Bool := decide (REASSEMBLY_TIMEOUT < now - t0)

/-- `CANBus::dispatch` combined with the closure stored by
`onReceive<T>`: look up the handler for the type-id; if absent, drop;
if the data is shorter than `sizeof(T)`, drop; otherwise the handler
receives the first `sizeof(T)` bytes (the `memcpy`). -/
def dispatch (type : Nat) (data : List Nat) (st : BusState) : BusState :=
  match assocLookup st.handlers type with
  | none => st
  | some sz =>
    if data.length < sz then st
    else { st with invoked := st.invoked ++ [(type, data.take sz)] }

/-- The frame built by `CANBus::sendAck`: identifier
`buildId(3, to, SINGLE, ACK_TYPE_ID)`, one payload byte holding the
acknowledged type-id. -/
def ackFrame (dest type : Nat) : Frame := ⟨buildId 3 dest SINGLE ACK_TYPE_ID, [type]⟩

/-- `CANBus::sendAck` as a state transformer: logs the transmitted
ACK frame (the `twai_transmit` result is ignored by the source). -/
def sendAckM (st : BusState) (dest type : Nat) : BusState :=
  { st with acksSent := st.acksSent ++ [ackFrame dest type] }

/-- The tail of the `END` branch of `handleReceive` before the final
`erase`, applied to the accumulated bytes (entry data plus this
frame's data): if fewer than one byte, drop; else pop the last byte
as the received checksum, compare with `crc8` of the remainder, and
on a match dispatch and send the ACK.  The caller erases the entry. -/
def processEnd (st : BusState) (frm type : Nat) (data : List Nat) : BusState :=
  if data.length < 1 then st
  else if data.getLastD 0 = crc8 data.dropLast then
    sendAckM (dispatch type data.dropLast st) frm type
  else st

/-- `CANBus::handleReceive` on one received frame `m` at time `now`
(the body after a successful `twai_receive`).  `fragMap_[baseId]`
default-constructs an absent entry (empty data, epoch timestamp 0)
before the sequence branches run; the `END` branch erases the entry
after `processEnd` in every case. -/
def handleFrame (now : Nat) (st : BusState) (m : Frame) : BusState :=
  let id := m.identifier
  let seq := decodeSeq id
  let type := decodeType id
  let frm := decodeFrom id
  if type = ACK_TYPE_ID then
    { st with pendingAck := headOr0 m.data }
  else
    let key := baseKey id
    let entry := (assocLookup st.fragMap key).getD ⟨[], 0⟩
    if seq = START then
      { st with fragMap := fragInsert st.fragMap key ⟨m.data, now⟩ }
    else if seq = MIDDLE then
      if expired entry.timestamp now then { st with fragMap := fragErase st.fragMap key }
      else
        { st with fragMap := fragInsert st.fragMap key ⟨entry.data ++ m.data, entry.timestamp⟩ }
    else if seq = END then
      if expired entry.timestamp now then { st with fragMap := fragErase st.fragMap key }
      else
        { processEnd st frm type (entry.data ++ m.data) with
            fragMap := fragErase st.fragMap key }
    else
      dispatch type m.data st

/-- Repeated calls of `handleReceive`, one per frame, all within the
same time unit `now`. -/
def handleFrames (now : Nat) (st : BusState) (ms : List Frame) : BusState :=
  ms.foldl (handleFrame now) st

/-! ### The retry loop of `CANBus::send`

`twai_transmit` is modelled as succeeding (the claims about the
retry engine all assume frames leave the node), so one iteration of
the outer `while (true)` loop transmits the whole fragment sequence
(`sendFrames`) once.  Each `waitAck` call is abstracted by an oracle
`ackOk` giving the outcome of the `n`-th wait (`runWait` below is
the faithful model of one wait window). -/

/-- Result of `CANBus::send`: how many times the full fragment
sequence was transmitted, whether `ESP_OK` was returned, and the
`(type, addr)` arguments of each `errorCb_` invocation. -/
structure SendOutcome where
  transmissions : Nat
  ok : Bool
  errorCalls : List (Nat × Nat)
deriving DecidableEq, Repr

/-- The `while (true)` loop of `send`: transmit the fragments, return
`ESP_OK` if no ACK is expected, otherwise wait for the ACK and retry
until `++attempts > retryLimit_`.  `attempts` is the loop variable,
`sent` counts transmissions so far. -/
def sendLoop (retryLimit : Nat) (fragmented : Bool) (ackOk : Nat → Bool)
    (attempts sent : Nat) : Nat × Bool :=
  let sent := sent + 1
  if retryLimit = 0 ∨ fragmented = false then (sent, true)
  else if ackOk attempts then (sent, true)
  else if retryLimit < attempts + 1 then (sent, false)
  else sendLoop retryLimit fragmented ackOk (attempts + 1) sent
termination_by retryLimit + 1 - attempts
decreasing_by omega

/-- `CANBus::send` for a message of raw bytes `msg`: `fragmented =
(len > 8)`; on loop exit without success, `errorCb_(type, addr)`
fires once and `ESP_FAIL` is returned. -/
def send (retryLimit prio addr type : Nat) (msg : List Nat) (ackOk : Nat → Bool) :
    SendOutcome :=
  let fragmented : Bool := decide (8 < msg.length)
  let r := sendLoop retryLimit fragmented ackOk 0 0
  ⟨r.1, r.2, if r.2 then [] else [(type, addr)]⟩

/-! ### The `waitAck` window

`waitAck(type, addr)` spins for up to 100 time units polling
`pendingAck_ == type`; the slot is written concurrently by
`handleReceive` running on the frames that arrive meanwhile.  One
wait window is modelled as the finite interleaving of those two
kinds of events. -/

/-- An event observable during one `waitAck` window: a frame fully
processed by `handleReceive`, or one poll of `pendingAck_ == type`
by the `waitAck` loop. -/
inductive WaitEvent where
  | recv (f : Frame)
  | poll
deriving DecidableEq, Repr

/-- `CANBus::waitAck` over the events of its window: `true` as soon
as a poll sees `pendingAck_ == type`; `false` when the window ends. -/
def runWait (type now : Nat) (st : BusState) : List WaitEvent → Bool
  | [] => false
  | .recv f :: evs => runWait type now (handleFrame now st f) evs
  | .poll :: evs => if st.pendingAck = type then true else runWait type now st evs

/-- The value held by `pendingAck_` at each poll of the window. -/
def pollValues (now : Nat) (st : BusState) : List WaitEvent → List Nat
  | [] => []
  | .recv f :: evs => pollValues now (handleFrame now st f) evs
  | .poll :: evs => st.pendingAck :: pollValues now st evs

/-- No frame at all is processed during the window (in particular no
acknowledgment frame is received). -/
def noRecv (evs : List WaitEvent) : Bool :=
  evs.all fun e => match e with
    | .recv _ => false
    | .poll => true

/-! ### CRC-8 reference version, following the spec's words -/

/-- Modelled from the spec: one bit step of §4.2 — on an 8-bit
running value, "if top bit set, shift left and XOR polynomial, else
shift left" with shift-left as doubling mod 256 and top bit set as
`128 ≤ c`. -/
def specBit (c : Nat) : Nat :=
  if 128 ≤ c then ((c * 2) ^^^ 0x31) % 256 else (c * 2) % 256

/-- Modelled from the spec: §4.2's checksum — byte-by-byte, XOR the
byte into the running value then apply eight bit steps, initial
value 0. -/
def specCrc8 (bytes : List Nat) : Nat :=
  bytes.foldl (fun c b => specBit^[8] (c ^^^ b)) 0

/-- Guard under which `dispatch` must be a no-op: no handler is
registered for the type-id, or the payload is shorter than the
registered handler's expected size. -/
def dispatchBlocked (st : BusState) (type : Nat) (data : List Nat) : Bool :=
  match assocLookup st.handlers type with
  | none => true
  | some sz => decide (data.length < sz)

/-- A state holding one fresh reassembly entry, used to witness C5. -/
def stW : BusState := ⟨0, [(1, ⟨[1, 2], 0⟩)], [], [], []⟩

/-- An `End` frame (identifier `buildId 0 0 END 1 = 17`) whose final
byte 5 differs from `crc8 [1, 2] = 150`, used to witness C5. -/
def mW : Frame := ⟨17, [5]⟩


/-! ### Identifier codec lemmas -/

theorem and3_eq_mod (x : Nat) : x &&& 3 = x % 4 := Nat.and_pow_two_sub_one_eq_mod x 2

theorem and15_eq_mod (x : Nat) : x &&& 15 = x % 16 := Nat.and_pow_two_sub_one_eq_mod x 4

theorem and7_eq_mod (x : Nat) : x &&& 7 = x % 8 := Nat.and_pow_two_sub_one_eq_mod x 3

/-- `buildId` masks each field to its width, so it only depends on the
fields modulo their widths. -/
theorem buildId_mod (p a s t : Nat) :
    buildId p a s t = buildId (p % 4) (a % 16) (s % 4) (t % 8) := by
  unfold buildId
  simp only [and3_eq_mod, and15_eq_mod, and7_eq_mod]
  simp [Nat.mod_mod_of_dvd]

set_option maxRecDepth 100000 in
theorem decode_buildId_bounded : ∀ p : Fin 4, ∀ a : Fin 16, ∀ s : Fin 4, ∀ t : Fin 8,
    decodePrio (buildId p a s t) = p ∧ decodeFrom (buildId p a s t) = a ∧
    decodeSeq (buildId p a s t) = s ∧ decodeType (buildId p a s t) = t ∧
    baseKey (buildId p a s t) = buildId p a 0 t := by decide

/-- Decoding the packed identifier recovers each field modulo its
width, and clearing the sequence bits yields the identifier rebuilt
with sequence `START = 0` (the routing key of the message). -/
theorem decode_buildId (p a s t : Nat) :
    decodePrio (buildId p a s t) = p % 4 ∧ decodeFrom (buildId p a s t) = a % 16 ∧
    decodeSeq (buildId p a s t) = s % 4 ∧ decodeType (buildId p a s t) = t % 8 ∧
    baseKey (buildId p a s t) = buildId p a 0 t := by
  have h := decode_buildId_bounded ⟨p % 4, by omega⟩ ⟨a % 16, by omega⟩ ⟨s % 4, by omega⟩
    ⟨t % 8, by omega⟩
  simp only at h
  rw [buildId_mod p a s t]
  refine ⟨h.1, h.2.1, h.2.2.1, h.2.2.2.1, ?_⟩
  rw [h.2.2.2.2, buildId_mod p a 0 t]

/-! ### Basic lemmas about the model's building blocks -/

theorem chunks_nil : chunks [] = [] := by
  rw [chunks]
  simp

theorem chunks_cons (bs : List Nat) (h : bs ≠ []) :
    chunks bs = bs.take 8 :: chunks (bs.drop 8) := by
  rw [chunks]
  simp [h]

/-- Concatenating the chunks gives back the buffer. -/
theorem chunks_flatten (bs : List Nat) : (chunks bs).flatten = bs := by
  have H : ∀ n (bs : List Nat), bs.length ≤ n → (chunks bs).flatten = bs := by
    intro n
    induction n with
    | zero =>
      intro bs hb
      have : bs = [] := List.eq_nil_of_length_eq_zero (by omega)
      simp [this, chunks_nil]
    | succ n ih =>
      intro bs hb
      rcases eq_or_ne bs [] with rfl | h
      · simp [chunks_nil]
      · rw [chunks_cons bs h]
        have h1 : 0 < bs.length := List.length_pos.mpr h
        have h2 : (bs.drop 8).length ≤ n := by
          simp only [List.length_drop]
          omega
        simp [ih _ h2]
  exact H bs.length bs le_rfl

theorem chunks_eq_singleton (bs : List Nat) (h : bs ≠ []) (hle : bs.length ≤ 8) :
    chunks bs = [bs] := by
  rw [chunks_cons bs h, List.take_of_length_le hle, List.drop_eq_nil_of_le hle, chunks_nil]

theorem assocLookup_cons_self {α : Type} (k : Nat) (v : α) (rest : List (Nat × α)) :
    assocLookup ((k, v) :: rest) k = some v := by
  simp [assocLookup]

theorem fragInsert_singleton (k : Nat) (e e' : FragEntry) :
    fragInsert [(k, e)] k e' = [(k, e')] := by
  simp [fragInsert]

theorem fragErase_singleton (k : Nat) (e : FragEntry) : fragErase [(k, e)] k = [] := by
  simp [fragErase]

theorem handleFrames_nil (now : Nat) (st : BusState) : handleFrames now st [] = st := rfl

theorem handleFrames_cons (now : Nat) (st : BusState) (m : Frame) (ms : List Frame) :
    handleFrames now st (m :: ms) = handleFrames now (handleFrame now st m) ms := rfl

/-! ### Branch lemmas for `handleFrame` -/

theorem handleFrame_ack (now : Nat) (st : BusState) (m : Frame)
    (h : decodeType m.identifier = ACK_TYPE_ID) :
    handleFrame now st m = { st with pendingAck := headOr0 m.data } := by
  simp [handleFrame, h]

theorem handleFrame_start (now : Nat) (st : BusState) (m : Frame)
    (h7 : decodeType m.identifier ≠ ACK_TYPE_ID) (hs : decodeSeq m.identifier = START) :
    handleFrame now st m =
      { st with fragMap := fragInsert st.fragMap (baseKey m.identifier) ⟨m.data, now⟩ } := by
  simp [handleFrame, h7, hs]

theorem handleFrame_middle_live (now : Nat) (st : BusState) (m : Frame) (e : FragEntry)
    (h7 : decodeType m.identifier ≠ ACK_TYPE_ID) (hs : decodeSeq m.identifier = MIDDLE)
    (he : assocLookup st.fragMap (baseKey m.identifier) = some e)
    (hx : expired e.timestamp now = false) :
    handleFrame now st m =
      { st with fragMap :=
          fragInsert st.fragMap (baseKey m.identifier) ⟨e.data ++ m.data, e.timestamp⟩ } := by
  simp [handleFrame, h7, hs, he, hx, MIDDLE, START]

theorem handleFrame_end_live (now : Nat) (st : BusState) (m : Frame) (e : FragEntry)
    (h7 : decodeType m.identifier ≠ ACK_TYPE_ID) (hs : decodeSeq m.identifier = END)
    (he : assocLookup st.fragMap (baseKey m.identifier) = some e)
    (hx : expired e.timestamp now = false) :
    handleFrame now st m =
      { processEnd st (decodeFrom m.identifier) (decodeType m.identifier)
          (e.data ++ m.data) with
          fragMap := fragErase st.fragMap (baseKey m.identifier) } := by
  simp [handleFrame, h7, hs, he, hx, END, MIDDLE, START]

theorem handleFrame_single (now : Nat) (st : BusState) (m : Frame)
    (h7 : decodeType m.identifier ≠ ACK_TYPE_ID) (hs : decodeSeq m.identifier = SINGLE) :
    handleFrame now st m = dispatch (decodeType m.identifier) m.data st := by
  simp [handleFrame, h7, hs, SINGLE, END, MIDDLE, START]

/-! ### `processEnd` only reads the non-`fragMap` fields -/

theorem dispatch_set_fragMap (t : Nat) (d : List Nat) (st : BusState)
    (fm : List (Nat × FragEntry)) :
    dispatch t d { st with fragMap := fm } = { dispatch t d st with fragMap := fm } := by
  cases st with
  | mk p f h i a =>
    unfold dispatch
    dsimp only
    cases assocLookup h t with
    | none => rfl
    | some sz =>
      by_cases hlen : d.length < sz
      · simp [hlen]
      · simp [hlen]

theorem sendAckM_set_fragMap (st : BusState) (fm : List (Nat × FragEntry)) (dest t : Nat) :
    sendAckM { st with fragMap := fm } dest t = { sendAckM st dest t with fragMap := fm } := by
  cases st
  rfl

theorem processEnd_set_fragMap (st : BusState) (fm : List (Nat × FragEntry)) (f t : Nat)
    (d : List Nat) :
    processEnd { st with fragMap := fm } f t d = { processEnd st f t d with fragMap := fm } := by
  unfold processEnd
  by_cases h1 : d.length < 1
  · rw [if_pos h1, if_pos h1]
  · by_cases h2 : d.getLastD 0 = crc8 d.dropLast
    · rw [if_neg h1, if_neg h1, if_pos h2, if_pos h2, dispatch_set_fragMap, sendAckM_set_fragMap]
    · rw [if_neg h1, if_neg h1, if_neg h2, if_neg h2]

theorem set_fragMap_set_fragMap (st : BusState) (a b : List (Nat × FragEntry)) :
    ({ { st with fragMap := a } with fragMap := b } : BusState) = { st with fragMap := b } := by
  cases st
  rfl

/-- Decode facts for the identifiers `send` builds, given an
application type-id (`type < 7`). -/
theorem decode_mk (prio addr type s : Nat) (ht : type < ACK_TYPE_ID) :
    decodeType (buildId prio addr s type) = type ∧
    decodeType (buildId prio addr s type) ≠ ACK_TYPE_ID ∧
    decodeSeq (buildId prio addr s type) = s % 4 ∧
    decodeFrom (buildId prio addr s type) = addr % 16 ∧
    baseKey (buildId prio addr s type) = buildId prio addr 0 type := by
  obtain ⟨-, h2, h3, h4, h5⟩ := decode_buildId prio addr s type
  have ht7 : type < 7 := by simpa [ACK_TYPE_ID] using ht
  have htype : type % 8 = type := Nat.mod_eq_of_lt (by omega)
  refine ⟨by rw [h4]; exact htype, ?_, h3, h2, h5⟩
  rw [h4, htype]
  simp only [ACK_TYPE_ID]
  omega

/-- Reassembly of the non-`Start` fragments: starting from a state
whose table holds exactly the entry for this message's routing key
with accumulated bytes `acc` and a non-expired timestamp, processing
the remaining fragments (Middles then the End) runs the End-frame
completion on `acc ++ cs.flatten` and leaves an empty table. -/
theorem handleRest (prio addr type now ts : Nat) (ht : type < ACK_TYPE_ID)
    (hts : expired ts now = false) :
    ∀ cs : List (List Nat), cs ≠ [] → ∀ (base : BusState) (acc : List Nat),
      base.fragMap = [(buildId prio addr 0 type, ⟨acc, ts⟩)] →
      handleFrames now base ((tagChunks true false cs).map (mkFrame prio addr type)) =
        { processEnd base (addr % 16) type (acc ++ cs.flatten) with fragMap := [] }
  | [], h, _, _, _ => absurd rfl h
  | [c], _, base, acc, hmap => by
    obtain ⟨hT, h7, hS, hF, hK⟩ := decode_mk prio addr type END ht
    have htag : tagChunks true false [c] = [(END, c)] := by simp [tagChunks]
    rw [htag, List.map_cons, List.map_nil, handleFrames_cons, handleFrames_nil]
    have he : assocLookup base.fragMap (baseKey (mkFrame prio addr type (END, c)).identifier) =
        some ⟨acc, ts⟩ := by
      simp only [mkFrame, hK, hmap]
      exact assocLookup_cons_self _ _ _
    rw [handleFrame_end_live now base _ ⟨acc, ts⟩ (by simpa [mkFrame] using h7)
      (by simpa [mkFrame, END] using hS) he hts]
    simp only [mkFrame] at *
    rw [hT, hF, hmap, hK, fragErase_singleton]
    simp
  | c :: c' :: cs', _, base, acc, hmap => by
    obtain ⟨hT, h7, hS, hF, hK⟩ := decode_mk prio addr type MIDDLE ht
    have htag : tagChunks true false (c :: c' :: cs') =
        (MIDDLE, c) :: tagChunks true false (c' :: cs') := by simp [tagChunks]
    rw [htag, List.map_cons, handleFrames_cons]
    have he : assocLookup base.fragMap
        (baseKey (mkFrame prio addr type (MIDDLE, c)).identifier) = some ⟨acc, ts⟩ := by
      simp only [mkFrame, hK, hmap]
      exact assocLookup_cons_self _ _ _
    rw [handleFrame_middle_live now base _ ⟨acc, ts⟩ (by simpa [mkFrame] using h7)
      (by simpa [mkFrame, MIDDLE] using hS) he hts]
    simp only [mkFrame] at *
    rw [hK, hmap, fragInsert_singleton]
    rw [handleRest prio addr type now ts ht hts (c' :: cs') (by simp)
      { base with fragMap := [(buildId prio addr 0 type, ⟨acc ++ c, ts⟩)] } (acc ++ c) rfl]
    rw [processEnd_set_fragMap, set_fragMap_set_fragMap]
    simp [List.append_assoc]

theorem chunks_ne_nil (bs : List Nat) (h : bs ≠ []) : chunks bs ≠ [] := by
  rw [chunks_cons bs h]
  exact List.cons_ne_nil _ _

/-- The general fragmentation/reassembly round trip: for any
non-empty message, feeding the frames produced by one `send` attempt
into `handleReceive` on a fresh endpoint whose registry maps the
message's type-id to the message's size invokes that handler exactly
once, with exactly the original bytes. -/
theorem sendFrames_roundtrip (prio addr type now : Nat) (ht : type < ACK_TYPE_ID)
    (msg : List Nat) (hne : msg ≠ []) :
    (handleFrames now (initState [(type, msg.length)])
        (sendFrames prio addr type msg)).invoked = [(type, msg)] := by
  by_cases hf : 8 < msg.length
  · -- fragmented: checksum byte appended, Start/Middle/End tags
    have hfd : decide (8 < msg.length) = true := decide_eq_true hf
    set buf : List Nat := msg ++ [crc8 msg] with hbuf
    have hbufne : buf ≠ [] := by simp [hbuf]
    have hlbuf : buf.length = msg.length + 1 := by simp [hbuf]
    have hdropne : buf.drop 8 ≠ [] := by
      have : (buf.drop 8).length = buf.length - 8 := List.length_drop 8 buf
      intro hcon
      rw [hcon] at this
      simp at this
      omega
    have hframes : sendFrames prio addr type msg =
        mkFrame prio addr type (START, buf.take 8) ::
          (tagChunks true false (chunks (buf.drop 8))).map (mkFrame prio addr type) := by
      unfold sendFrames
      rw [hfd]
      simp only [if_true, ← hbuf]
      rw [chunks_cons buf hbufne]
      simp [tagChunks]
    obtain ⟨hT, h7, hS, hF, hK⟩ := decode_mk prio addr type START ht
    rw [hframes, handleFrames_cons,
      handleFrame_start now _ _ (by simpa [mkFrame] using h7) (by simpa [mkFrame, START] using hS)]
    simp only [mkFrame, hK, initState]
    rw [show fragInsert (⟨0, [], [(type, msg.length)], [], []⟩ : BusState).fragMap
        (buildId prio addr 0 type) ⟨buf.take 8, now⟩ =
        [(buildId prio addr 0 type, ⟨buf.take 8, now⟩)] by simp [fragInsert]]
    rw [handleRest prio addr type now now ht (by simp [expired]) (chunks (buf.drop 8))
      (chunks_ne_nil _ hdropne) _ (buf.take 8) rfl]
    rw [chunks_flatten, List.take_append_drop]
    have hproc : processEnd
        { (⟨0, [], [(type, msg.length)], [], []⟩ : BusState) with
            fragMap := [(buildId prio addr 0 type, ⟨buf.take 8, now⟩)] }
        (addr % 16) type buf =
        sendAckM (dispatch type msg
          { (⟨0, [], [(type, msg.length)], [], []⟩ : BusState) with
              fragMap := [(buildId prio addr 0 type, ⟨buf.take 8, now⟩)] })
          (addr % 16) type := by
      unfold processEnd
      rw [if_neg (by rw [hlbuf]; omega)]
      rw [show buf.getLastD 0 = crc8 msg by simp [hbuf]]
      rw [show buf.dropLast = msg by simp [hbuf]]
      rw [if_pos rfl]
    rw [hproc]
    simp [sendAckM, dispatch, assocLookup]
  · -- single frame: no checksum, SINGLE tag, direct dispatch
    have hfd : decide (8 < msg.length) = false := decide_eq_false hf
    have hframes : sendFrames prio addr type msg =
        [mkFrame prio addr type (SINGLE, msg)] := by
      unfold sendFrames
      rw [hfd]
      simp only [if_false, Bool.false_eq_true]
      rw [chunks_eq_singleton msg hne (by omega)]
      simp [tagChunks]
    obtain ⟨hT, h7, hS, hF, hK⟩ := decode_mk prio addr type SINGLE ht
    rw [hframes, handleFrames_cons, handleFrames_nil,
      handleFrame_single now _ _ (by simpa [mkFrame] using h7)
        (by simpa [mkFrame, SINGLE] using hS)]
    simp only [mkFrame] at hT ⊢
    rw [hT]
    simp [dispatch, initState, assocLookup, List.take_length]

theorem bitStep_lt (c : Nat) : bitStep c < 256 := by
  unfold bitStep
  split <;> exact Nat.mod_lt _ (by omega)

set_option maxRecDepth 100000 in
theorem bitStep_eq_specBit : ∀ c : Fin 256, bitStep c.val = specBit c.val ∧ specBit c.val < 256 := by
  decide

theorem iterate_bitStep_eq (n : Nat) : ∀ c : Nat, c < 256 →
    bitStep^[n] c = specBit^[n] c ∧ bitStep^[n] c < 256 := by
  induction n with
  | zero => intro c hc; simp [hc]
  | succ n ih =>
    intro c hc
    obtain ⟨h1, h2⟩ := bitStep_eq_specBit ⟨c, hc⟩
    rw [Function.iterate_succ_apply, Function.iterate_succ_apply, h1]
    exact ih (specBit c) h2

theorem crc8Byte_eq (c b : Nat) (hc : c < 256) (hb : b < 256) :
    crc8Byte c b = specBit^[8] (c ^^^ b) ∧ crc8Byte c b < 256 := by
  have hxor : c ^^^ b < 256 := Nat.xor_lt_two_pow (n := 8) hc hb
  unfold crc8Byte
  exact iterate_bitStep_eq 8 (c ^^^ b) hxor

theorem foldl_crc8Byte_eq (bs : List Nat) : ∀ c : Nat, c < 256 → (∀ b ∈ bs, b < 256) →
    bs.foldl crc8Byte c = bs.foldl (fun c b => specBit^[8] (c ^^^ b)) c ∧
    bs.foldl crc8Byte c < 256 := by
  induction bs with
  | nil => intro c hc _; simpa using hc
  | cons b bs ih =>
    intro c hc hb
    obtain ⟨h1, h2⟩ := crc8Byte_eq c b hc (hb b (by simp))
    simp only [List.foldl_cons]
    obtain ⟨h3, h4⟩ := ih (crc8Byte c b) h2 (fun x hx => hb x (by simp [hx]))
    rw [h3, h1]
    refine ⟨rfl, ?_⟩
    rw [← h1, ← h3]
    exact h4

/-- `processEnd` leaves the state untouched when the accumulation is
degenerate or the popped checksum byte does not match. -/
theorem processEnd_mismatch (st : BusState) (f t : Nat) (d : List Nat)
    (h : d.length < 1 ∨ d.getLastD 0 ≠ crc8 d.dropLast) : processEnd st f t d = st := by
  unfold processEnd
  by_cases h1 : d.length < 1
  · rw [if_pos h1]
  · rcases h with h | h
    · exact absurd h h1
    · rw [if_neg h1, if_neg h]

/-! ### The claims -/

/-- Claim C1: for every payload of length 1, 7, 8, 9, 16, 20 or 61
bytes, `send` splits it into ≤8-byte frames tagged
Start/Middle/End (Single when the length is ≤ 8, a trailing `crc8`
byte being appended before splitting otherwise), and feeding those
frames in order into `handleReceive` reconstructs the original bytes
and invokes the handler registered for the type-id exactly once with
exactly that payload. -/
theorem c1_fragmentation_roundtrip (prio addr type now : Nat) (msg : List Nat)
    (hL : msg.length ∈ [1, 7, 8, 9, 16, 20, 61]) (_hbytes : ∀ b ∈ msg, b < 256)
    (ht : type < ACK_TYPE_ID) :
    (handleFrames now (initState [(type, msg.length)])
        (sendFrames prio addr type msg)).invoked = [(type, msg)] := by
  have hne : msg ≠ [] := by
    intro hcon
    rw [hcon] at hL
    simp at hL
  exact sendFrames_roundtrip prio addr type now ht msg hne

theorem c1_witness :
    (handleFrames 0 (initState [(2, 9)])
        (sendFrames 1 3 2 [1, 2, 3, 4, 5, 6, 7, 8, 9])).invoked =
      [(2, [1, 2, 3, 4, 5, 6, 7, 8, 9])] :=
  c1_fragmentation_roundtrip 1 3 2 0 [1, 2, 3, 4, 5, 6, 7, 8, 9]
    (by decide) (by decide) (by decide)

/-- Claim C2: with retry limit 2 and no acknowledgment ever observed,
a multi-frame send transmits the full fragment sequence exactly 3
times (1 initial attempt plus 2 retries), invokes the error callback
exactly once with the message's type-id and destination address, and
returns a failure result. -/
theorem c2_retry_exhaustion (prio addr type : Nat) (msg : List Nat) (h : 8 < msg.length) :
    send 2 prio addr type msg (fun _ => false) =
      ⟨3, false, [(type, addr)]⟩ := by
  unfold send
  rw [decide_eq_true h]
  unfold sendLoop
  norm_num
  unfold sendLoop
  norm_num
  unfold sendLoop
  norm_num

theorem c2_witness :
    8 < ([1, 2, 3, 4, 5, 6, 7, 8, 9] : List Nat).length ∧
    send 2 0 1 2 [1, 2, 3, 4, 5, 6, 7, 8, 9] (fun _ => false) = ⟨3, false, [(2, 1)]⟩ :=
  ⟨by decide, c2_retry_exhaustion 0 1 2 [1, 2, 3, 4, 5, 6, 7, 8, 9] (by decide)⟩

/-- Claim C3 (amended): a `waitAck` window succeeds if and only if
some poll during the window sees `pendingAck_` equal to the
message's type-id.  The slot holds the first payload byte of the
most recently processed ACK frame, `0` initially, so success does
not require a matching acknowledgment frame to have been received
within the window (see `c3_counterexample`). -/
theorem c3_wait_iff_poll_match (type now : Nat) (st : BusState) (evs : List WaitEvent) :
    runWait type now st evs = true ↔ type ∈ pollValues now st evs := by
  induction evs generalizing st with
  | nil => simp [runWait, pollValues]
  | cons e evs ih =>
    cases e with
    | recv f => simpa [runWait, pollValues] using ih (handleFrame now st f)
    | poll =>
      by_cases h : st.pendingAck = type
      · simp [runWait, pollValues, h]
      · simp only [runWait, pollValues, if_neg h, List.mem_cons]
        rw [ih st]
        constructor
        · exact Or.inr
        · rintro (hc | hm)
          · exact absurd hc.symm h
          · exact hm

/-- Claim C3, counterexample to the claim as stated: on a fresh
endpoint (`pendingAck_ = 0`), a wait for type-id `0` succeeds at its
very first poll although no frame — in particular no acknowledgment
frame carrying that type-id — was received within the window. -/
theorem c3_counterexample :
    runWait 0 0 (initState []) [WaitEvent.poll] = true ∧
    noRecv [WaitEvent.poll] = true := by
  exact ⟨rfl, rfl⟩

/-- Claim C4 (stated behaviour refuted, code bug): a `Middle` frame
whose routing key has no reassembly entry is supposed to be
discarded, but at time 100 — within the first
`REASSEMBLY_TIMEOUT` time units of the clock — `fragMap_[baseId]`
default-constructs an entry with the epoch timestamp 0, the expiry
check passes, and the frame's bytes are appended and kept. -/
theorem c4_middle_no_entry_appended :
    (handleFrame 100 (initState []) ⟨buildId 0 0 MIDDLE 1, [9]⟩).fragMap =
      [(buildId 0 0 START 1, ⟨[9], 0⟩)] := by decide

/-- Claim C5: an `End` frame processed on an existing non-expired
entry removes the entry in every case, and when the popped last byte
differs from the checksum of the remaining bytes (or the
accumulation is degenerate and empty) no handler is invoked and no
acknowledgment frame is transmitted. -/
theorem c5_end_frame_cleanup (now : Nat) (st : BusState) (m : Frame) (e : FragEntry)
    (h7 : decodeType m.identifier ≠ ACK_TYPE_ID) (hs : decodeSeq m.identifier = END)
    (he : assocLookup st.fragMap (baseKey m.identifier) = some e)
    (hx : expired e.timestamp now = false) :
    (handleFrame now st m).fragMap = fragErase st.fragMap (baseKey m.identifier) ∧
    ((e.data ++ m.data).getLastD 0 ≠ crc8 (e.data ++ m.data).dropLast →
      (handleFrame now st m).invoked = st.invoked ∧
      (handleFrame now st m).acksSent = st.acksSent) ∧
    (e.data ++ m.data = [] →
      (handleFrame now st m).invoked = st.invoked ∧
      (handleFrame now st m).acksSent = st.acksSent) := by
  rw [handleFrame_end_live now st m e h7 hs he hx]
  refine ⟨rfl, ?_, ?_⟩
  · intro hmis
    rw [processEnd_mismatch st _ _ _ (Or.inr hmis)]
    exact ⟨rfl, rfl⟩
  · intro hnil
    rw [processEnd_mismatch st _ _ _ (Or.inl (by simp [hnil]))]
    exact ⟨rfl, rfl⟩

theorem c5_witness :
    (handleFrame 0 stW mW).fragMap = fragErase stW.fragMap (baseKey mW.identifier) ∧
    (handleFrame 0 stW mW).invoked = stW.invoked ∧
    (handleFrame 0 stW mW).acksSent = stW.acksSent := by
  have h := c5_end_frame_cleanup 0 stW mW ⟨[1, 2], 0⟩ (by decide) (by decide) (by decide)
    (by decide)
  exact ⟨h.1, (h.2.1 (by decide)).1, (h.2.1 (by decide)).2⟩

/-- Claim C6: for every priority in [0,3], address in [0,15],
sequence in {0..3} and type in [0,7], decoding the identifier packed
by `buildId` yields back exactly the four fields. -/
theorem c6_id_roundtrip (p a s t : Nat) (hp : p < 4) (ha : a < 16) (hs : s < 4)
    (ht : t < 8) :
    decodePrio (buildId p a s t) = p ∧ decodeFrom (buildId p a s t) = a ∧
    decodeSeq (buildId p a s t) = s ∧ decodeType (buildId p a s t) = t := by
  obtain ⟨h1, h2, h3, h4, -⟩ := decode_buildId p a s t
  rw [h1, h2, h3, h4, Nat.mod_eq_of_lt hp, Nat.mod_eq_of_lt ha, Nat.mod_eq_of_lt hs,
    Nat.mod_eq_of_lt ht]
  exact ⟨rfl, rfl, rfl, rfl⟩

theorem c6_witness :
    decodePrio (buildId 1 5 2 3) = 1 ∧ decodeFrom (buildId 1 5 2 3) = 5 ∧
    decodeSeq (buildId 1 5 2 3) = 2 ∧ decodeType (buildId 1 5 2 3) = 3 :=
  c6_id_roundtrip 1 5 2 3 (by decide) (by decide) (by decide) (by decide)

/-- Claim C7: on byte sequences, `crc8` computes exactly the CRC-8
described in the spec (polynomial 0x31, initial value 0, MSB-first,
no reflection, no final XOR), and its result is one byte.
Determinism is immediate since `crc8` is a function of the bytes. -/
theorem c7_crc8_matches_spec (bytes : List Nat) (hb : ∀ b ∈ bytes, b < 256) :
    crc8 bytes = specCrc8 bytes ∧ crc8 bytes < 256 :=
  foldl_crc8Byte_eq bytes 0 (by omega) hb

theorem c7_witness :
    crc8 [49, 0, 255, 7] = specCrc8 [49, 0, 255, 7] ∧ crc8 [49, 0, 255, 7] < 256 :=
  c7_crc8_matches_spec [49, 0, 255, 7] (by decide)

/-- Claim C8: when the configured retry limit is 0 or the message
fits into a single frame (length ≤ 8), `send` returns success after
transmitting the fragment sequence once, independently of the ACK
oracle (no wait is consulted), and the error callback never fires. -/
theorem c8_no_ack_fast_path (retryLimit prio addr type : Nat) (msg : List Nat)
    (h : retryLimit = 0 ∨ msg.length ≤ 8) (ackOk : Nat → Bool) :
    send retryLimit prio addr type msg ackOk = ⟨1, true, []⟩ := by
  unfold send
  rcases h with h | h
  · subst h
    unfold sendLoop
    norm_num
  · rw [decide_eq_false (by omega)]
    unfold sendLoop
    norm_num

theorem c8_witness :
    ((0 : Nat) = 0 ∨ ([1, 2, 3] : List Nat).length ≤ 8) ∧
    send 0 1 2 3 [1, 2, 3] (fun _ => true) = ⟨1, true, []⟩ :=
  ⟨Or.inl rfl, c8_no_ack_fast_path 0 1 2 3 [1, 2, 3] (Or.inl rfl) (fun _ => true)⟩

/-- Claim C9: dispatching a type-id with no registered handler, or
with fewer bytes than the registered handler's expected size, leaves
the state unchanged — no handler runs, the bytes are dropped without
error. -/
theorem c9_dispatch_guard (st : BusState) (type : Nat) (data : List Nat)
    (h : dispatchBlocked st type data = true) : dispatch type data st = st := by
  unfold dispatch
  unfold dispatchBlocked at h
  cases hh : assocLookup st.handlers type with
  | none => rfl
  | some sz =>
    rw [hh] at h
    simp only [decide_eq_true_eq] at h
    dsimp only
    rw [if_pos h]

theorem c9_witness :
    dispatchBlocked (initState [(5, 4)]) 5 [1] = true ∧
    dispatch 5 [1] (initState [(5, 4)]) = initState [(5, 4)] :=
  ⟨by decide, c9_dispatch_guard (initState [(5, 4)]) 5 [1] (by decide)⟩

/-- Claim C10: a received frame whose type field is the reserved
`ACK_TYPE_ID = 7` — whatever its sequence bits — only overwrites the
pending-acknowledgment slot with its first payload byte (0 when the
payload is empty); the reassembly table, the handler-invocation log
and the ACK output are untouched. -/
theorem c10_ack_frame_effect (now : Nat) (st : BusState) (m : Frame)
    (h : decodeType m.identifier = ACK_TYPE_ID) :
    (handleFrame now st m).pendingAck = headOr0 m.data ∧
    (handleFrame now st m).fragMap = st.fragMap ∧
    (handleFrame now st m).invoked = st.invoked ∧
    (handleFrame now st m).acksSent = st.acksSent := by
  rw [handleFrame_ack now st m h]
  exact ⟨rfl, rfl, rfl, rfl⟩

theorem c10_witness :
    (handleFrame 0 (initState [(3, 2)]) ⟨1199, [4]⟩).pendingAck = headOr0 [4] ∧
    (handleFrame 0 (initState [(3, 2)]) ⟨1199, [4]⟩).fragMap = (initState [(3, 2)]).fragMap ∧
    (handleFrame 0 (initState [(3, 2)]) ⟨1199, [4]⟩).invoked = (initState [(3, 2)]).invoked ∧
    (handleFrame 0 (initState [(3, 2)]) ⟨1199, [4]⟩).acksSent = (initState [(3, 2)]).acksSent :=
  c10_ack_frame_effect 0 (initState [(3, 2)]) ⟨1199, [4]⟩ (by decide)

end CANBus
